import Mathlib

/-!
Verification development for the `@evmauth/eip712-authn` library.

Server side (`src/server/auth-server.ts`, `src/server/errors.ts`): the
challenge issuance (`createChallenge`) and verification (`verifyChallenge`)
functions are embedded directly.  The external collaborators that the spec
explicitly excludes from the core — the JWT token service (`jsonwebtoken`)
and the typed-data signature primitives (`ethers.isAddress`,
`ethers.verifyTypedData`) — are given an idealized symbolic model that
follows the interface the spec assigns to them (a token is a tamper-evident
claims set with an expiry; signature recovery returns the signer of a
signature over exactly the signed payload).

Client side (`src/client/wallet-connector.ts`): the `WalletConnector` class
is embedded as an explicit state machine: a state record, a step function
over the externally driven actions (method calls with their provider
outcomes, provider events, EIP-6963 announcements), and a list of emitted
observable effects (storage writes, listener registrations and invocations,
listener notifications).
-/

namespace EIP712Authn

/-- Hex-digit test on a character, as used for the syntactic shape of an
Ethereum address (`0-9`, `a-f`, `A-F`). -/
def isHexDigit (c : Char) : Bool :=
  ('0' ≤ c && c ≤ '9') || ('a' ≤ c && c ≤ 'f') || ('A' ≤ c && c ≤ 'F')

/-- ASCII lower-casing of a single character, the character-level model of
JavaScript `toLowerCase` on the ASCII strings addresses are made of. -/
def lowerChar (c : Char) : Char :=
  if 'A' ≤ c && c ≤ 'Z' then Char.ofNat (c.toNat + 32) else c

/-- Model of JavaScript `String.prototype.toLowerCase` restricted to ASCII
strings (Ethereum addresses are `0x` plus hex digits). -/
def lowerString (s : String) : String :=
  String.mk (s.data.map lowerChar)

/-- Modelled from the spec: ethers `isAddress` (the external
SignatureRecovery collaborator's syntactic address validity check): the
string is `0x` followed by exactly 40 hex digits. -/
def isAddress (s : String) : Bool :=
  match s.data with
  | '0' :: 'x' :: rest => rest.length == 40 && rest.all isHexDigit
  | _ => false

/-- Modelled from the spec: the claims set carried by a challenge token.
`jwt.sign({ address }, …)` stores an `address` claim; an arbitrary token's
payload may lack it, so the claim is optional.  `exp` is the absolute
expiry time in seconds. -/
structure JwtPayload where
  address : Option String
  exp : Nat
deriving DecidableEq

/-- Modelled from the spec: the opaque, tamper-evident ChallengeToken issued
by the external TokenService.  Symbolically, a token is its claims set
together with the secret it was signed with; `jwtVerify` fails unless the
presented secret matches, which models tamper-evidence. -/
structure JwtToken where
  payload : JwtPayload
  secret : String
deriving DecidableEq

/-- Modelled from the spec: `jwt.sign({ address }, secret, { expiresIn })`
issued at time `now`: a token over the `address` claim expiring at
`now + expiresIn`. -/
def jwtSign (address : String) (secret : String) (expiresIn : Nat) (now : Nat) : JwtToken :=
  { payload := { address := some address, exp := now + expiresIn }, secret := secret }

/-- Modelled from the spec: `jwt.verify(token, secret)` evaluated at time
`now`: returns the decoded payload, failing if the token was signed with a
different secret (tampered) or has expired (`jsonwebtoken` rejects once
`now ≥ exp`). -/
def jwtVerify (token : JwtToken) (secret : String) (now : Nat) : Option JwtPayload :=
  if token.secret = secret ∧ now < token.payload.exp then some token.payload else none

/-- Modelled from the spec: the string rendering of the opaque token (the
spec's ChallengeToken is an opaque string; the symbolic token renders its
claims and secret separated by dots, as compact JWTs render their parts). -/
def JwtToken.serialize (t : JwtToken) : String :=
  (match t.payload.address with
   | some a => a
   | none => "") ++ "." ++ toString t.payload.exp ++ "." ++ t.secret

/-- The EIP-712 signing domain, from `src/common/types.ts` (`EIP712Domain`). -/
structure EIP712Domain where
  name : String
  version : String
  chainId : Nat
deriving DecidableEq

/-- One entry of an EIP-712 type description (`{ name, type }`). -/
structure TypedDataField where
  name : String
  type : String
deriving DecidableEq

/-- The `types` member of an `EIP712AuthMessage`, from `src/common/types.ts`. -/
structure EIP712AuthTypes where
  EIP712Domain : List TypedDataField
  Authentication : List TypedDataField
deriving DecidableEq

/-- The `message` member of an `EIP712AuthMessage` (`EIP712AuthChallenge` in
`src/common/types.ts`): the embedded challenge token. -/
structure EIP712AuthChallenge where
  challenge : JwtToken
deriving DecidableEq

/-- The challenge envelope (`EIP712AuthMessage` in `src/common/types.ts`).
`domain` and `message` are optional because `verifyChallenge` explicitly
checks their presence (`!unsigned?.domain || !unsigned?.message`). -/
structure EIP712AuthMessage where
  domain : Option EIP712Domain
  types : EIP712AuthTypes
  primaryType : String
  message : Option EIP712AuthChallenge
deriving DecidableEq

/-- The error taxonomy of `src/server/errors.ts`: four distinct `AuthError`
subclasses, each carrying its message string. -/
inductive AuthError where
  | invalidMessage (msg : String)
  | invalidJWT (msg : String)
  | invalidSignature (msg : String)
  | signatureMismatch (msg : String)
deriving DecidableEq

/-- The exact data covered by an EIP-712 signature in this protocol: the
domain, the `Authentication` type description and the message, i.e. the
three data arguments `verifyChallenge` passes to `verifyTypedData`. -/
structure TypedDataPayload where
  domain : EIP712Domain
  types : List TypedDataField
  message : EIP712AuthChallenge
deriving DecidableEq

/-- Modelled from the spec: a typed-data signature, symbolically.  A
signature either was validly produced by the key of address `signer` over
a definite payload, or is garbage that recovery rejects. -/
inductive Signature where
  | signedBy (signer : String) (payload : TypedDataPayload)
  | garbage
deriving DecidableEq

/-- Modelled from the spec: ethers `verifyTypedData` (the external
SignatureRecovery collaborator): recovery of a valid signature over exactly
the presented domain/types/message yields the signer's address; recovery
fails otherwise. -/
def verifyTypedData (domain : EIP712Domain) (types : List TypedDataField)
    (message : EIP712AuthChallenge) (sig : Signature) : Option String :=
  match sig with
  | Signature.signedBy signer payload =>
      if payload = { domain := domain, types := types, message := message } then some signer
      else none
  | Signature.garbage => none

/-- `createChallenge` from `src/server/auth-server.ts`, with the issuance
time `now` made explicit: signs `{ address }` into a token with the given
TTL and wraps it in the canonical Authentication envelope. -/
def createChallenge (address : String) (jwtSecret : String) (domain : EIP712Domain)
    (expiresIn : Nat) (now : Nat) : EIP712AuthMessage :=
  { domain := some domain
  , types :=
      { EIP712Domain :=
          [ { name := "name", type := "string" }
          , { name := "version", type := "string" }
          , { name := "chainId", type := "uint256" } ]
      , Authentication := [ { name := "challenge", type := "string" } ] }
  , primaryType := "Authentication"
  , message := some { challenge := jwtSign address jwtSecret expiresIn now } }

/-- `verifyChallenge` from `src/server/auth-server.ts`, with the
verification time `now` made explicit.  Thrown `AuthError`s are embedded as
`Except.error`. -/
def verifyChallenge (unsigned : EIP712AuthMessage) (signed : Signature)
    (jwtSecret : String) (now : Nat) : Except AuthError String :=
  match unsigned.domain, unsigned.message with
  | some dom, some msg =>
      match jwtVerify msg.challenge jwtSecret now with
      | none => Except.error (AuthError.invalidJWT "Invalid JWT token")
      | some payload =>
          match payload.address with
          | none =>
              Except.error (AuthError.invalidJWT "JWT token does not contain a valid address")
          | some expectedAddress =>
              if expectedAddress = "" ∨ isAddress expectedAddress = false then
                Except.error (AuthError.invalidJWT "JWT token does not contain a valid address")
              else
                match verifyTypedData dom unsigned.types.Authentication msg signed with
                | none => Except.error (AuthError.invalidSignature "Invalid signature")
                | some signerAddress =>
                    if signerAddress = "" ∨ isAddress signerAddress = false then
                      Except.error (AuthError.invalidSignature
                        "Signature verification did not return a valid address")
                    else if lowerString signerAddress ≠ lowerString expectedAddress then
                      Except.error (AuthError.signatureMismatch
                        "Signature does not match expected address")
                    else
                      Except.ok signerAddress
  | _, _ => Except.error (AuthError.invalidMessage "Invalid EIP-712 message")

/-- A sample valid address in upper-case hex, from the spec's concrete
scenario. -/
def sampleUpper : String := "0xABCDEF0123456789ABCDEF0123456789ABCDEF01"

/-- The lower-case normalization of `sampleUpper`, from the spec's concrete
scenario. -/
def sampleLower : String := "0xabcdef0123456789abcdef0123456789abcdef01"

/-- The sample signing domain from the spec's concrete scenario. -/
def sampleDomain : EIP712Domain := { name := "App", version := "1", chainId := 1 }

/-- Helper: a syntactically valid address is non-empty. -/
theorem isAddress_ne_empty {s : String} (h : isAddress s = true) : s ≠ "" := by
  intro hs
  subst hs
  exact absurd h (by decide)

/-- Helper: the issue/verify round trip, shared by the claims that rest on
it.  Verification of a freshly issued envelope with a valid signature by a
key case-insensitively equal to the challenged address succeeds and returns
the signer's address. -/
theorem verify_roundtrip_aux
    (address signer jwtSecret : String) (domain : EIP712Domain)
    (ttl t0 t : Nat) (c : EIP712AuthChallenge)
    (haddr : isAddress address = true)
    (hsigner : isAddress signer = true)
    (hkey : lowerString signer = lowerString address)
    (ht : t < t0 + ttl)
    (hc : (createChallenge address jwtSecret domain ttl t0).message = some c) :
    verifyChallenge (createChallenge address jwtSecret domain ttl t0)
      (Signature.signedBy signer
        { domain := domain
        , types := (createChallenge address jwtSecret domain ttl t0).types.Authentication
        , message := c })
      jwtSecret t = Except.ok signer := by
  have hcm : c = { challenge := jwtSign address jwtSecret ttl t0 } := by
    simpa [createChallenge] using hc.symm
  subst hcm
  have hane : address ≠ "" := isAddress_ne_empty haddr
  have hsne : signer ≠ "" := isAddress_ne_empty hsigner
  simp [verifyChallenge, createChallenge, jwtVerify, jwtSign, verifyTypedData,
    hane, hsne, haddr, hsigner, hkey, ht]

/-- C1: for every syntactically valid address, any domain, and any ttl > 0,
verifying the envelope produced by `createChallenge` together with a
signature over exactly that envelope produced by the key of that address
(i.e. a signer address equal to it case-insensitively), with the same
secret and before the ttl elapses, succeeds and returns an address equal to
the input address under case-insensitive comparison. -/
theorem createChallenge_verifyChallenge_roundtrip
    (address signer jwtSecret : String) (domain : EIP712Domain)
    (ttl t0 t : Nat) (c : EIP712AuthChallenge)
    (haddr : isAddress address = true)
    (hsigner : isAddress signer = true)
    (hkey : lowerString signer = lowerString address)
    (httl : 0 < ttl)
    (ht : t < t0 + ttl)
    (hc : (createChallenge address jwtSecret domain ttl t0).message = some c) :
    ∃ out,
      verifyChallenge (createChallenge address jwtSecret domain ttl t0)
        (Signature.signedBy signer
          { domain := domain
          , types := (createChallenge address jwtSecret domain ttl t0).types.Authentication
          , message := c })
        jwtSecret t = Except.ok out ∧
      lowerString out = lowerString address :=
  ⟨signer, verify_roundtrip_aux address signer jwtSecret domain ttl t0 t c
    haddr hsigner hkey ht hc, hkey⟩

/-- Witness for C1 at a concrete valid address, signer, secret, domain and
times. -/
theorem createChallenge_verifyChallenge_roundtrip_witness :
    ∃ out,
      verifyChallenge (createChallenge sampleUpper "secret" sampleDomain 30 0)
        (Signature.signedBy sampleLower
          { domain := sampleDomain
          , types := (createChallenge sampleUpper "secret" sampleDomain 30 0).types.Authentication
          , message := { challenge := jwtSign sampleUpper "secret" 30 0 } })
        "secret" 10 = Except.ok out ∧
      lowerString out = lowerString sampleUpper :=
  createChallenge_verifyChallenge_roundtrip sampleUpper sampleLower
    "secret" sampleDomain 30 0 10
    { challenge := jwtSign sampleUpper "secret" 30 0 }
    (by decide) (by decide) (by decide) (by decide) (by decide) rfl

/-- The challenge token of the spec's concrete scenario, issued at time 0. -/
def sampleToken : JwtToken := jwtSign sampleUpper "secret" 30 0

/-- The envelope of the spec's concrete scenario. -/
def sampleEnv : EIP712AuthMessage := createChallenge sampleUpper "secret" sampleDomain 30 0

/-- The typed-data payload a signer of `sampleEnv` signs. -/
def samplePayload : TypedDataPayload :=
  { domain := sampleDomain
  , types := sampleEnv.types.Authentication
  , message := { challenge := sampleToken } }

/-- A second valid address (the burn address), distinct from `sampleUpper`
under case-insensitive comparison. -/
def deadAddress : String := "0x000000000000000000000000000000000000dEaD"

/-- An envelope with no domain and no message. -/
def noDomainEnv : EIP712AuthMessage :=
  { domain := none
  , types := sampleEnv.types
  , primaryType := "Authentication"
  , message := none }

/-- A token whose payload carries no address claim. -/
def noAddrToken : JwtToken := { payload := { address := none, exp := 100 }, secret := "secret" }

/-- An envelope embedding a token with no address claim. -/
def noAddrEnv : EIP712AuthMessage :=
  { domain := some sampleDomain
  , types := sampleEnv.types
  , primaryType := "Authentication"
  , message := some { challenge := noAddrToken } }

/-- C2: `verifyChallenge` applies its checks in a fixed order, each step
short-circuiting on failure: missing domain or message fails with
`invalidMessage`; then token verification failure, or a decoded address
claim that is absent, empty, or syntactically invalid, fails with
`invalidJWT`; then signer-recovery failure or a recovered address that is
not syntactically valid fails with `invalidSignature`; then case-insensitive
inequality of recovered and claimed address fails with
`signatureMismatch`; and the four failure kinds are pairwise distinct
constructors of `AuthError`, never collapsed into a boolean. -/
theorem verifyChallenge_check_order :
    (∀ (u : EIP712AuthMessage) (sig : Signature) (secret : String) (now : Nat),
      u.domain = none ∨ u.message = none →
      ∃ m, verifyChallenge u sig secret now = Except.error (AuthError.invalidMessage m)) ∧
    (∀ (u : EIP712AuthMessage) (sig : Signature) (secret : String) (now : Nat)
       (dom : EIP712Domain) (msg : EIP712AuthChallenge),
      u.domain = some dom → u.message = some msg →
      jwtVerify msg.challenge secret now = none →
      ∃ m, verifyChallenge u sig secret now = Except.error (AuthError.invalidJWT m)) ∧
    (∀ (u : EIP712AuthMessage) (sig : Signature) (secret : String) (now : Nat)
       (dom : EIP712Domain) (msg : EIP712AuthChallenge) (payload : JwtPayload),
      u.domain = some dom → u.message = some msg →
      jwtVerify msg.challenge secret now = some payload →
      (∀ a, payload.address = some a → a = "" ∨ isAddress a = false) →
      ∃ m, verifyChallenge u sig secret now = Except.error (AuthError.invalidJWT m)) ∧
    (∀ (u : EIP712AuthMessage) (sig : Signature) (secret : String) (now : Nat)
       (dom : EIP712Domain) (msg : EIP712AuthChallenge) (payload : JwtPayload) (a : String),
      u.domain = some dom → u.message = some msg →
      jwtVerify msg.challenge secret now = some payload →
      payload.address = some a → isAddress a = true →
      (∀ r, verifyTypedData dom u.types.Authentication msg sig = some r →
        r = "" ∨ isAddress r = false) →
      ∃ m, verifyChallenge u sig secret now = Except.error (AuthError.invalidSignature m)) ∧
    (∀ (u : EIP712AuthMessage) (sig : Signature) (secret : String) (now : Nat)
       (dom : EIP712Domain) (msg : EIP712AuthChallenge) (payload : JwtPayload) (a r : String),
      u.domain = some dom → u.message = some msg →
      jwtVerify msg.challenge secret now = some payload →
      payload.address = some a → isAddress a = true →
      verifyTypedData dom u.types.Authentication msg sig = some r →
      isAddress r = true → lowerString r ≠ lowerString a →
      verifyChallenge u sig secret now =
        Except.error (AuthError.signatureMismatch "Signature does not match expected address")) ∧
    (∀ m₁ m₂ : String,
      AuthError.invalidMessage m₁ ≠ AuthError.invalidJWT m₂ ∧
      AuthError.invalidMessage m₁ ≠ AuthError.invalidSignature m₂ ∧
      AuthError.invalidMessage m₁ ≠ AuthError.signatureMismatch m₂ ∧
      AuthError.invalidJWT m₁ ≠ AuthError.invalidSignature m₂ ∧
      AuthError.invalidJWT m₁ ≠ AuthError.signatureMismatch m₂ ∧
      AuthError.invalidSignature m₁ ≠ AuthError.signatureMismatch m₂) := by
  refine ⟨?_, ?_, ?_, ?_, ?_, ?_⟩
  · intro u sig secret now h
    refine ⟨"Invalid EIP-712 message", ?_⟩
    rcases h with h | h
    · rcases hm : u.message with _ | msg <;> simp [verifyChallenge, h, hm]
    · rcases hd : u.domain with _ | dom <;> simp [verifyChallenge, h, hd]
  · intro u sig secret now dom msg hd hm hjwt
    exact ⟨"Invalid JWT token", by simp [verifyChallenge, hd, hm, hjwt]⟩
  · intro u sig secret now dom msg payload hd hm hjwt hbad
    refine ⟨"JWT token does not contain a valid address", ?_⟩
    rcases ha : payload.address with _ | a
    · simp [verifyChallenge, hd, hm, hjwt, ha]
    · rcases hbad a ha with h | h
      · simp [verifyChallenge, hd, hm, hjwt, ha, h]
      · simp [verifyChallenge, hd, hm, hjwt, ha, h]
  · intro u sig secret now dom msg payload a hd hm hjwt ha haval hbad
    have hane : a ≠ "" := isAddress_ne_empty haval
    rcases hr : verifyTypedData dom u.types.Authentication msg sig with _ | r
    · exact ⟨"Invalid signature", by simp [verifyChallenge, hd, hm, hjwt, ha, haval, hane, hr]⟩
    · refine ⟨"Signature verification did not return a valid address", ?_⟩
      rcases hbad r hr with h | h
      · simp [verifyChallenge, hd, hm, hjwt, ha, haval, hane, hr, h]
      · simp [verifyChallenge, hd, hm, hjwt, ha, haval, hane, hr, h]
  · intro u sig secret now dom msg payload a r hd hm hjwt ha haval hr hrval hne
    have hane : a ≠ "" := isAddress_ne_empty haval
    have hrne : r ≠ "" := isAddress_ne_empty hrval
    simp [verifyChallenge, hd, hm, hjwt, ha, haval, hane, hr, hrval, hrne, hne]
  · intro m₁ m₂
    refine ⟨?_, ?_, ?_, ?_, ?_, ?_⟩ <;> intro h <;> cases h

/-- Witness for C2: each branch of the check order exercised at a concrete
envelope, signature, secret and time. -/
theorem verifyChallenge_check_order_witness :
    (∃ m, verifyChallenge noDomainEnv Signature.garbage "secret" 0 =
      Except.error (AuthError.invalidMessage m)) ∧
    (∃ m, verifyChallenge sampleEnv Signature.garbage "other" 0 =
      Except.error (AuthError.invalidJWT m)) ∧
    (∃ m, verifyChallenge noAddrEnv Signature.garbage "secret" 0 =
      Except.error (AuthError.invalidJWT m)) ∧
    (∃ m, verifyChallenge sampleEnv Signature.garbage "secret" 0 =
      Except.error (AuthError.invalidSignature m)) ∧
    (verifyChallenge sampleEnv (Signature.signedBy deadAddress samplePayload) "secret" 0 =
      Except.error (AuthError.signatureMismatch "Signature does not match expected address")) ∧
    (AuthError.invalidMessage "x" ≠ AuthError.invalidJWT "x") := by
  refine ⟨?_, ?_, ?_, ?_, ?_, ?_⟩
  · exact verifyChallenge_check_order.1 noDomainEnv Signature.garbage "secret" 0 (Or.inl rfl)
  · exact verifyChallenge_check_order.2.1 sampleEnv Signature.garbage "other" 0
      sampleDomain { challenge := sampleToken } rfl rfl (by decide)
  · exact verifyChallenge_check_order.2.2.1 noAddrEnv Signature.garbage "secret" 0
      sampleDomain { challenge := noAddrToken } { address := none, exp := 100 } rfl rfl
      (by decide) (fun a h => Option.noConfusion h)
  · exact verifyChallenge_check_order.2.2.2.1 sampleEnv Signature.garbage "secret" 0
      sampleDomain { challenge := sampleToken } { address := some sampleUpper, exp := 30 }
      sampleUpper rfl rfl (by decide) rfl (by decide)
      (fun r h => by simp [verifyTypedData] at h)
  · exact verifyChallenge_check_order.2.2.2.2.1 sampleEnv
      (Signature.signedBy deadAddress samplePayload) "secret" 0
      sampleDomain { challenge := sampleToken } { address := some sampleUpper, exp := 30 }
      sampleUpper deadAddress rfl rfl (by decide) rfl (by decide) (by decide) (by decide)
      (by decide)
  · exact (verifyChallenge_check_order.2.2.2.2.2 "x" "x").1

/-- C3: when the embedded token decodes to a valid address claim and the
signature was validly produced over exactly that envelope by the key of a
different valid address, `verifyChallenge` fails with `signatureMismatch`
and never with `invalidSignature`. -/
theorem verifyChallenge_wrong_signer_mismatch
    (u : EIP712AuthMessage) (dom : EIP712Domain) (msg : EIP712AuthChallenge)
    (payload : JwtPayload) (claimed signer : String) (secret : String) (now : Nat)
    (hd : u.domain = some dom) (hm : u.message = some msg)
    (hjwt : jwtVerify msg.challenge secret now = some payload)
    (hclaim : payload.address = some claimed) (hcval : isAddress claimed = true)
    (hsval : isAddress signer = true)
    (hdiff : lowerString signer ≠ lowerString claimed) :
    verifyChallenge u
      (Signature.signedBy signer { domain := dom, types := u.types.Authentication, message := msg })
      secret now =
      Except.error (AuthError.signatureMismatch "Signature does not match expected address") ∧
    ∀ m, verifyChallenge u
      (Signature.signedBy signer { domain := dom, types := u.types.Authentication, message := msg })
      secret now ≠ Except.error (AuthError.invalidSignature m) := by
  have hcne : claimed ≠ "" := isAddress_ne_empty hcval
  have hsne : signer ≠ "" := isAddress_ne_empty hsval
  have h1 : verifyChallenge u
      (Signature.signedBy signer { domain := dom, types := u.types.Authentication, message := msg })
      secret now =
      Except.error (AuthError.signatureMismatch "Signature does not match expected address") := by
    simp [verifyChallenge, hd, hm, hjwt, hclaim, hcval, hcne, hsval, hsne, hdiff, verifyTypedData]
  exact ⟨h1, fun m => by rw [h1]; simp⟩

/-- Witness for C3: the spec's concrete scenario — the sample envelope
signed by the key of the burn address fails with `signatureMismatch`. -/
theorem verifyChallenge_wrong_signer_mismatch_witness :
    verifyChallenge sampleEnv (Signature.signedBy deadAddress samplePayload) "secret" 0 =
      Except.error (AuthError.signatureMismatch "Signature does not match expected address") ∧
    ∀ m, verifyChallenge sampleEnv (Signature.signedBy deadAddress samplePayload) "secret" 0 ≠
      Except.error (AuthError.invalidSignature m) :=
  verifyChallenge_wrong_signer_mismatch sampleEnv sampleDomain { challenge := sampleToken }
    { address := some sampleUpper, exp := 30 } sampleUpper deadAddress "secret" 0
    rfl rfl (by decide) rfl (by decide) (by decide) (by decide)

/-- Counterexample for C4 as stated: a signature by the matching key whose
recovery reports the upper-case casing makes `verifyChallenge` return the
recovered casing, not the lowercase-normalized string: the code ends with
`return signerAddress`, never lower-casing the result. -/
theorem verifyChallenge_returns_recovered_casing_cex :
    verifyChallenge sampleEnv (Signature.signedBy sampleUpper samplePayload) "secret" 10 =
      Except.ok sampleUpper ∧
    sampleUpper ≠ sampleLower := by
  constructor
  · rfl
  · decide

/-- Helper: the string rendering of any token is non-empty. -/
theorem serialize_ne_empty (t : JwtToken) : t.serialize ≠ "" := by
  intro h
  have hlen := congrArg String.length h
  have hdot : ("." : String).length = 1 := rfl
  have hnil : ("" : String).length = 0 := rfl
  simp only [JwtToken.serialize, String.length_append, hdot, hnil] at hlen
  omega

/-- C4 amended: `issue("0xABCDEF0123456789ABCDEF0123456789ABCDEF01",
{name:"App",version:"1",chainId:1}, 30)` yields an envelope whose
`message.challenge` renders to a non-empty string, and calling `verify` on
that envelope with a signature by the matching key, before the ttl
elapses, returns an address equal to
`"0xabcdef0123456789abcdef0123456789abcdef01"` under case-insensitive
comparison; the exact casing of the returned string is the one signature
recovery reports, not a forced lowercase normalization. -/
theorem verify_concrete_roundtrip_amended (signer : String) (t0 t : Nat)
    (hs : isAddress signer = true)
    (hk : lowerString signer = sampleLower)
    (ht : t < t0 + 30) :
    ∃ c, (createChallenge sampleUpper "secret" sampleDomain 30 t0).message = some c ∧
      c.challenge.serialize ≠ "" ∧
      ∃ out,
        verifyChallenge (createChallenge sampleUpper "secret" sampleDomain 30 t0)
          (Signature.signedBy signer
            { domain := sampleDomain
            , types := (createChallenge sampleUpper "secret" sampleDomain 30 t0).types.Authentication
            , message := c })
          "secret" t = Except.ok out ∧
        lowerString out = sampleLower := by
  refine ⟨{ challenge := jwtSign sampleUpper "secret" 30 t0 }, rfl, serialize_ne_empty _, ?_⟩
  have hup : lowerString sampleUpper = sampleLower := by decide
  have hout :=
    verify_roundtrip_aux sampleUpper signer "secret" sampleDomain 30 t0 t
      { challenge := jwtSign sampleUpper "secret" 30 t0 }
      (by decide) hs (by rw [hk, hup]) ht rfl
  exact ⟨signer, hout, hk⟩

/-- Witness for the amended C4 at the matching-key signer in upper-case
casing, issued at time 0 and verified at time 0. -/
theorem verify_concrete_roundtrip_amended_witness :
    ∃ c, (createChallenge sampleUpper "secret" sampleDomain 30 0).message = some c ∧
      c.challenge.serialize ≠ "" ∧
      ∃ out,
        verifyChallenge (createChallenge sampleUpper "secret" sampleDomain 30 0)
          (Signature.signedBy sampleUpper
            { domain := sampleDomain
            , types := (createChallenge sampleUpper "secret" sampleDomain 30 0).types.Authentication
            , message := c })
          "secret" 0 = Except.ok out ∧
        lowerString out = sampleLower :=
  verify_concrete_roundtrip_amended sampleUpper 0 0 (by decide) (by decide) (by decide)

/-- EIP-6963 provider announcement info, from `src/client/types.ts`. -/
structure EIP6963ProviderInfo where
  uuid : String
  name : String
  icon : String
  rdns : String
deriving DecidableEq

/-- An announced provider, from `src/client/types.ts`: its info plus the
underlying EIP-1193 provider object, identified here by a numeric handle
(object identity). -/
structure EIP6963ProviderDetail where
  info : EIP6963ProviderInfo
  provider : Nat
deriving DecidableEq

/-- A provider-level event as delivered to the listeners that
`setupProviderListeners` registers.  The `accountsChanged` payload is
`none` when the provider passes a value that is not an array (the handler
checks `Array.isArray`). -/
inductive ProviderEvent where
  | accountsChanged (accounts : Option (List String))
  | chainChanged
  | disconnected
deriving DecidableEq

/-- Outcome of the provider's `eth_requestAccounts` call inside `connect`:
either the promise resolves (possibly to a missing or empty list) or it
rejects. -/
inductive RequestOutcome where
  | success (accounts : Option (List String))
  | failure
deriving DecidableEq

/-- Result of a `connect` call: a returned value or a thrown error. -/
inductive ConnectResult where
  | ok (address : Option String)
  | threw (msg : String)
deriving DecidableEq

/-- An observable effect of a `WalletConnector` operation: persisted-store
writes, listener (de)registrations on a provider, invocations of the
connector's own provider-level handlers, and notifications to the
connector's registered change listeners. -/
inductive Effect where
  | storageSet (key value : String)
  | storageRemove (key : String)
  | listenersAdded (handle gen : Nat)
  | listenersRemoved (handle gen : Nat)
  | handlerInvoked (handle gen : Nat)
  | notifyAddress (address : Option String)
  | notifyProvider (provider : Option EIP6963ProviderDetail)
  | notifyProviderList (provider : EIP6963ProviderDetail)
deriving DecidableEq

/-- The mutable state of a `WalletConnector` instance.  `attached` lists the
listener groups (the accountsChanged/chainChanged/disconnect handler
triple registered by one `setupProviderListeners` call) currently
registered on a provider, as (provider handle, generation) pairs; `cleanup`
is the `cleanupListeners` closure, recording the one group it would remove;
`nextGen` numbers listener groups so that distinct registrations are
distinct closures; `storedAddress`/`storedUuid` are the two localStorage
keys `walletAddress`/`walletProviderUuid`. -/
structure ConnectorState where
  providers : List EIP6963ProviderDetail
  selectedProvider : Option EIP6963ProviderDetail
  address : Option String
  attached : List (Nat × Nat)
  cleanup : Option (Nat × Nat)
  nextGen : Nat
  storedAddress : Option String
  storedUuid : Option String
deriving DecidableEq

/-- The freshly constructed `WalletConnector`. -/
def initState : ConnectorState :=
  { providers := []
  , selectedProvider := none
  , address := none
  , attached := []
  , cleanup := none
  , nextGen := 0
  , storedAddress := none
  , storedUuid := none }

/-- `getProviders`: returns a snapshot copy of the provider list (value
semantics make the defensive copy the list itself). -/
def getProviders (s : ConnectorState) : List EIP6963ProviderDetail :=
  s.providers

/-- `getAddress`. -/
def getAddress (s : ConnectorState) : Option String :=
  s.address

/-- `getSelectedProvider`. -/
def getSelectedProvider (s : ConnectorState) : Option EIP6963ProviderDetail :=
  s.selectedProvider

/-- The `eip6963:announceProvider` listener body from
`initializeProviderDiscovery`: append the announced detail only if no
existing record shares its uuid, then notify provider-list listeners. -/
def announceStep (s : ConnectorState) (p : EIP6963ProviderDetail) :
    ConnectorState × List Effect :=
  if s.providers.any (fun q => q.info.uuid = p.info.uuid) then (s, [])
  else ({ s with providers := s.providers ++ [p] }, [Effect.notifyProviderList p])

/-- `connect(provider)`, with the provider's `eth_requestAccounts` outcome
made explicit.  On a non-empty account list: set address and provider,
register a fresh listener group (overwriting `cleanupListeners`), persist
the two keys, notify.  On an empty or missing list: return null with no
effect.  On rejection: throw with no effect. -/
def connectStep (s : ConnectorState) (p : EIP6963ProviderDetail) (o : RequestOutcome) :
    ConnectorState × ConnectResult × List Effect :=
  match o with
  | RequestOutcome.failure => (s, ConnectResult.threw "Failed to connect wallet", [])
  | RequestOutcome.success accounts =>
      match accounts with
      | some (a :: _) =>
          ({ s with
              address := some a
            , selectedProvider := some p
            , attached := s.attached ++ [(p.provider, s.nextGen)]
            , cleanup := some (p.provider, s.nextGen)
            , nextGen := s.nextGen + 1
            , storedAddress := some a
            , storedUuid := some p.info.uuid }
          , ConnectResult.ok (some a)
          , [ Effect.listenersAdded p.provider s.nextGen
            , Effect.storageSet "walletAddress" a
            , Effect.storageSet "walletProviderUuid" p.info.uuid
            , Effect.notifyAddress (some a)
            , Effect.notifyProvider (some p) ])
      | _ => (s, ConnectResult.ok none, [])

/-- `disconnect()`: run `cleanupListeners` if present (removing exactly the
group it recorded), clear address and provider, remove the persisted keys,
notify with null. -/
def disconnectStep (s : ConnectorState) : ConnectorState × List Effect :=
  let removal :=
    match s.cleanup with
    | some pg => ([Effect.listenersRemoved pg.1 pg.2],
        s.attached.filter (fun qg => qg ≠ pg))
    | none => ([], s.attached)
  ({ s with
      attached := removal.2
    , cleanup := none
    , address := none
    , selectedProvider := none
    , storedAddress := none
    , storedUuid := none }
  , removal.1 ++
    [ Effect.storageRemove "walletAddress"
    , Effect.storageRemove "walletProviderUuid"
    , Effect.notifyAddress none
    , Effect.notifyProvider none ])

/-- The body of the handlers `setupProviderListeners` registers, selected
by the event: a non-array accountsChanged payload only logs; an empty
account list disconnects; a changed first account updates the address and
notifies; chainChanged notifies with the current address; a provider
disconnect event disconnects. -/
def runHandler (s : ConnectorState) (ev : ProviderEvent) : ConnectorState × List Effect :=
  match ev with
  | ProviderEvent.accountsChanged none => (s, [])
  | ProviderEvent.accountsChanged (some []) => disconnectStep s
  | ProviderEvent.accountsChanged (some (a :: _)) =>
      if s.address = some a then (s, [])
      else ({ s with address := some a }, [Effect.notifyAddress (some a)])
  | ProviderEvent.chainChanged => (s, [Effect.notifyAddress s.address])
  | ProviderEvent.disconnected => disconnectStep s

/-- Sequential invocation of a list of listener groups on an emitted
event: each invocation is recorded and runs the handler body on the
then-current state. -/
def dispatch (ev : ProviderEvent) : List (Nat × Nat) → ConnectorState → ConnectorState × List Effect
  | [], s => (s, [])
  | pg :: rest, s =>
      let r := runHandler s ev
      let r' := dispatch ev rest r.1
      (r'.1, Effect.handlerInvoked pg.1 pg.2 :: (r.2 ++ r'.2))

/-- Delivery of a provider event: the provider with handle `h` emits `ev`
to every listener group currently registered on it (snapshot taken at emit
time), in registration order. -/
def fireEvent (s : ConnectorState) (h : Nat) (ev : ProviderEvent) :
    ConnectorState × List Effect :=
  dispatch ev (s.attached.filter (fun pg => pg.1 = h)) s

/-- `reconnect()`, with the eventual `eth_requestAccounts` outcome made
explicit: restore only when both keys are persisted and a provider with
the stored uuid has been discovered, in which case the full `connect`
handshake is replayed against that provider; otherwise return null with no
state change. -/
def reconnectStep (s : ConnectorState) (o : RequestOutcome) :
    ConnectorState × ConnectResult × List Effect :=
  match s.storedAddress, s.storedUuid with
  | some _, some uuid =>
      match s.providers.find? (fun q => q.info.uuid = uuid) with
      | some p => connectStep s p o
      | none => (s, ConnectResult.ok none, [])
  | _, _ => (s, ConnectResult.ok none, [])

/-- An externally driven action on a `WalletConnector`: a method call
(with its provider outcome) or an event from the environment. -/
inductive Action where
  | connect (p : EIP6963ProviderDetail) (o : RequestOutcome)
  | reconnect (o : RequestOutcome)
  | disconnect
  | providerEvent (handle : Nat) (ev : ProviderEvent)
  | announce (p : EIP6963ProviderDetail)
deriving DecidableEq

/-- One step of the connector state machine. -/
def step (s : ConnectorState) (a : Action) : ConnectorState × List Effect :=
  match a with
  | Action.connect p o =>
      let r := connectStep s p o
      (r.1, r.2.2)
  | Action.reconnect o =>
      let r := reconnectStep s o
      (r.1, r.2.2)
  | Action.disconnect => disconnectStep s
  | Action.providerEvent h ev => fireEvent s h ev
  | Action.announce p => announceStep s p

/-- Run a sequence of actions from a state, accumulating the effects. -/
def runFrom (s : ConnectorState) : List Action → ConnectorState × List Effect
  | [] => (s, [])
  | a :: rest =>
      let r := step s a
      let r' := runFrom r.1 rest
      (r'.1, r.2 ++ r'.2)

/-- Run a sequence of actions on a fresh connector. -/
def run (acts : List Action) : ConnectorState × List Effect :=
  runFrom initState acts

/-- A sample announced provider with handle 1. -/
def sp1 : EIP6963ProviderDetail := { info := { uuid := "u1", name := "P1", icon := "i", rdns := "r" }, provider := 1 }

/-- A second sample announced provider with handle 2. -/
def sp2 : EIP6963ProviderDetail := { info := { uuid := "u2", name := "P2", icon := "i", rdns := "r" }, provider := 2 }

/-- C6: a `connect` whose `eth_requestAccounts` resolves to a missing or
empty account list returns null, leaves the whole connector state (address,
selected provider, subscriptions, persisted keys) unchanged, attaches no
listeners and performs no persistence writes (no effects at all); a
`connect` whose request rejects throws the connection failure and likewise
leaves the state exactly as it was. -/
theorem connect_failure_leaves_state (s : ConnectorState) (p : EIP6963ProviderDetail) :
    (∀ accounts, accounts = none ∨ accounts = some ([] : List String) →
      connectStep s p (RequestOutcome.success accounts) = (s, ConnectResult.ok none, [])) ∧
    connectStep s p RequestOutcome.failure =
      (s, ConnectResult.threw "Failed to connect wallet", []) := by
  constructor
  · intro accounts h
    rcases h with h | h <;> subst h <;> rfl
  · rfl

/-- Witness for C6 at a freshly constructed connector and the sample
provider: zero accounts, a missing account list, and a rejected request. -/
theorem connect_failure_leaves_state_witness :
    connectStep initState sp1 (RequestOutcome.success (some [])) =
      (initState, ConnectResult.ok none, []) ∧
    connectStep initState sp1 (RequestOutcome.success none) =
      (initState, ConnectResult.ok none, []) ∧
    connectStep initState sp1 RequestOutcome.failure =
      (initState, ConnectResult.threw "Failed to connect wallet", []) :=
  ⟨(connect_failure_leaves_state initState sp1).1 (some []) (Or.inr rfl),
   (connect_failure_leaves_state initState sp1).1 none (Or.inl rfl),
   (connect_failure_leaves_state initState sp1).2⟩

/-- The sub-sequence of provider details announced by a list of actions. -/
def announcedIn : List Action → List EIP6963ProviderDetail
  | [] => []
  | Action.announce p :: rest => p :: announcedIn rest
  | Action.connect _ _ :: rest => announcedIn rest
  | Action.reconnect _ :: rest => announcedIn rest
  | Action.disconnect :: rest => announcedIn rest
  | Action.providerEvent _ _ :: rest => announcedIn rest

/-- First-occurrence deduplication by uuid, skipping uuids already seen. -/
def dedupFirst (seen : List String) : List EIP6963ProviderDetail → List EIP6963ProviderDetail
  | [] => []
  | p :: rest =>
      if p.info.uuid ∈ seen then dedupFirst seen rest
      else p :: dedupFirst (p.info.uuid :: seen) rest

/-- Helper: `dedupFirst` only depends on the membership of the seen set. -/
theorem dedupFirst_congr (l : List EIP6963ProviderDetail) :
    ∀ seen₁ seen₂, (∀ x, x ∈ seen₁ ↔ x ∈ seen₂) →
    dedupFirst seen₁ l = dedupFirst seen₂ l := by
  induction l with
  | nil => intro _ _ _; rfl
  | cons p rest ih =>
      intro seen₁ seen₂ h
      by_cases hp : p.info.uuid ∈ seen₁
      · rw [dedupFirst, dedupFirst, if_pos hp, if_pos ((h _).mp hp)]
        exact ih seen₁ seen₂ h
      · rw [dedupFirst, dedupFirst, if_neg hp, if_neg (fun hc => hp ((h _).mpr hc))]
        refine congrArg _ (ih _ _ ?_)
        intro x
        simp only [List.mem_cons]
        exact or_congr Iff.rfl (h x)

/-- Helper: `connectStep` never touches the provider list. -/
theorem connectStep_providers (s : ConnectorState) (p : EIP6963ProviderDetail)
    (o : RequestOutcome) : (connectStep s p o).1.providers = s.providers := by
  rcases o with (_ | (_ | ⟨a, l⟩)) | _ <;> rfl

/-- Helper: the handler bodies never touch the provider list. -/
theorem runHandler_providers (s : ConnectorState) (ev : ProviderEvent) :
    (runHandler s ev).1.providers = s.providers := by
  rcases ev with (_ | _ | _) | _ | _ <;> simp [runHandler, disconnectStep]
  rename_i a rest
  by_cases h : s.address = some a <;> simp [h]

/-- Helper: event delivery never touches the provider list. -/
theorem dispatch_providers (ev : ProviderEvent) :
    ∀ (groups : List (Nat × Nat)) (s : ConnectorState),
    (dispatch ev groups s).1.providers = s.providers := by
  intro groups
  induction groups with
  | nil => intro s; rfl
  | cons pg rest ih =>
      intro s
      show (dispatch ev rest (runHandler s ev).1).1.providers = s.providers
      rw [ih, runHandler_providers]

/-- Helper: the provider list after a run is the start list extended by the
first occurrence of each newly announced uuid, in announcement order. -/
theorem runFrom_providers (acts : List Action) :
    ∀ s, (runFrom s acts).1.providers =
      s.providers ++ dedupFirst (s.providers.map (fun q => q.info.uuid)) (announcedIn acts) := by
  induction acts with
  | nil => intro s; simp [runFrom, dedupFirst]
  | cons a rest ih =>
      intro s
      rcases a with ⟨p, o⟩ | ⟨o⟩ | _ | ⟨h, ev⟩ | ⟨p⟩
      · show (runFrom (connectStep s p o).1 rest).1.providers = _
        rcases o with (_ | (_ | ⟨a, l⟩)) | _ <;>
          simp [connectStep, ih, announcedIn]
      · show (runFrom (reconnectStep s o).1 rest).1.providers = _
        have hred : (reconnectStep s o).1.providers = s.providers := by
          rcases hsa : s.storedAddress with _ | sa <;> rcases hsu : s.storedUuid with _ | su <;>
            simp only [reconnectStep, hsa, hsu]
          rcases hf : s.providers.find? (fun q => q.info.uuid = su) with _ | p <;>
            simp only [hf]
          exact connectStep_providers s p o
        rw [ih, hred, announcedIn]
      · show (runFrom (disconnectStep s).1 rest).1.providers = _
        simp [disconnectStep, ih, announcedIn]
      · show (runFrom (fireEvent s h ev).1 rest).1.providers = _
        have hfe : (fireEvent s h ev).1.providers = s.providers := dispatch_providers ev _ s
        rw [ih, hfe, announcedIn]
      · show (runFrom (announceStep s p).1 rest).1.providers = _
        by_cases hp : s.providers.any (fun q => q.info.uuid = p.info.uuid)
        · have hmem : p.info.uuid ∈ s.providers.map (fun q => q.info.uuid) := by
            rcases List.any_eq_true.mp hp with ⟨q, hq, hq'⟩
            exact List.mem_map.mpr ⟨q, hq, of_decide_eq_true hq'⟩
          simp only [announceStep, if_pos hp]
          rw [ih, announcedIn, dedupFirst, if_pos hmem]
        · have hmem : p.info.uuid ∉ s.providers.map (fun q => q.info.uuid) := by
            intro hc
            rcases List.mem_map.mp hc with ⟨q, hq, hq'⟩
            exact hp (List.any_eq_true.mpr ⟨q, hq, decide_eq_true hq'⟩)
          simp only [announceStep, if_neg hp]
          rw [ih, announcedIn, dedupFirst, if_neg hmem]
          simp only [List.map_append, List.append_assoc, List.singleton_append, List.map_cons,
            List.map_nil]
          refine congrArg _ (congrArg _ (dedupFirst_congr _ _ _ ?_))
          intro x
          simp only [List.mem_append, List.mem_cons, List.mem_singleton, List.not_mem_nil]
          tauto

/-- Helper: `dedupFirst` yields pairwise distinct uuids avoiding the seen
set. -/
theorem dedupFirst_nodup (l : List EIP6963ProviderDetail) :
    ∀ seen, ((dedupFirst seen l).map (fun q => q.info.uuid)).Nodup ∧
      ∀ x ∈ (dedupFirst seen l).map (fun q => q.info.uuid), x ∉ seen := by
  induction l with
  | nil => intro seen; simp [dedupFirst]
  | cons p rest ih =>
      intro seen
      by_cases hp : p.info.uuid ∈ seen
      · rw [dedupFirst, if_pos hp]
        exact ih seen
      · rw [dedupFirst, if_neg hp]
        obtain ⟨hnd, hav⟩ := ih (p.info.uuid :: seen)
        refine ⟨?_, ?_⟩
        · simp only [List.map_cons, List.nodup_cons]
          exact ⟨fun hc => (hav _ hc) (List.mem_cons_self _ _), hnd⟩
        · intro x hx
          simp only [List.map_cons, List.mem_cons] at hx
          rcases hx with hx | hx
          · simpa [hx] using hp
          · exact fun hc => (hav x hx) (List.mem_cons_of_mem _ hc)

/-- C8: over every action sequence the provider list never contains two
records with the same uuid; it is exactly the first occurrence of each
announced uuid in first-seen order; an announced record is appended only
when no existing record shares its uuid; `getProviders` returns the
current list (a snapshot under value semantics); and announcing the same
uuid twice in a row leaves exactly one record. -/
theorem registry_dedup_first_seen :
    (∀ acts : List Action,
      ((run acts).1.providers.map (fun q => q.info.uuid)).Nodup) ∧
    (∀ acts : List Action,
      (run acts).1.providers = dedupFirst [] (announcedIn acts)) ∧
    (∀ (s : ConnectorState) (p : EIP6963ProviderDetail),
      (∃ q ∈ s.providers, q.info.uuid = p.info.uuid) → announceStep s p = (s, [])) ∧
    (∀ (s : ConnectorState) (p : EIP6963ProviderDetail),
      (∀ q ∈ s.providers, q.info.uuid ≠ p.info.uuid) →
      announceStep s p =
        ({ s with providers := s.providers ++ [p] }, [Effect.notifyProviderList p])) ∧
    (∀ s : ConnectorState, getProviders s = s.providers) ∧
    (∀ p : EIP6963ProviderDetail,
      (run [Action.announce p, Action.announce p]).1.providers = [p]) := by
  have hrun : ∀ acts : List Action,
      (run acts).1.providers = dedupFirst [] (announcedIn acts) := by
    intro acts
    have h := runFrom_providers acts initState
    simpa [run, initState] using h
  refine ⟨?_, hrun, ?_, ?_, ?_, ?_⟩
  · intro acts
    rw [hrun acts]
    exact (dedupFirst_nodup (announcedIn acts) []).1
  · intro s p hex
    rcases hex with ⟨q, hq, hq'⟩
    have hany : s.providers.any (fun q => q.info.uuid = p.info.uuid) = true :=
      List.any_eq_true.mpr ⟨q, hq, decide_eq_true hq'⟩
    simp only [announceStep, if_pos hany]
  · intro s p hall
    have hno : ¬ s.providers.any (fun q => q.info.uuid = p.info.uuid) = true := by
      intro hc
      rcases List.any_eq_true.mp hc with ⟨q, hq, hq'⟩
      exact hall q hq (of_decide_eq_true hq')
    simp only [announceStep, if_neg hno]
  · intro s
    rfl
  · intro p
    rw [hrun]
    simp [announcedIn, dedupFirst]

/-- Witness for C8: the registry behaviour at the concrete sample
providers, including a duplicate announcement. -/
theorem registry_dedup_first_seen_witness :
    ((run [Action.announce sp1, Action.announce sp1, Action.announce sp2]).1.providers.map
      (fun q => q.info.uuid)).Nodup ∧
    announceStep { initState with providers := [sp1] } sp1 =
      ({ initState with providers := [sp1] }, []) ∧
    announceStep { initState with providers := [sp1] } sp2 =
      ({ initState with providers := [sp1, sp2] }, [Effect.notifyProviderList sp2]) ∧
    getProviders { initState with providers := [sp1] } = [sp1] ∧
    (run [Action.announce sp1, Action.announce sp1]).1.providers = [sp1] := by
  refine ⟨?_, ?_, ?_, ?_, ?_⟩
  · exact registry_dedup_first_seen.1 [Action.announce sp1, Action.announce sp1,
      Action.announce sp2]
  · exact registry_dedup_first_seen.2.2.1 { initState with providers := [sp1] } sp1
      ⟨sp1, by simp, rfl⟩
  · have h := registry_dedup_first_seen.2.2.2.1 { initState with providers := [sp1] } sp2
      (by intro q hq; simp at hq; subst hq; decide)
    simpa using h
  · exact registry_dedup_first_seen.2.2.2.2.1 { initState with providers := [sp1] }
  · exact registry_dedup_first_seen.2.2.2.2.2 sp1

/-- The connector state after a single successful `connect` to `sp1` with
account `"0xa"`. -/
def connectedState : ConnectorState :=
  (run [Action.connect sp1 (RequestOutcome.success (some ["0xa"]))]).1

/-- C9: while connected (one provider, one address, the listener group of
that provider registered and recorded by `cleanupListeners`), an
`accountsChanged` event carrying an empty array has exactly the effect of
calling `disconnect()` — same resulting state and same effects, after the
handler invocation itself: address and selected provider become null, the
two persisted keys are removed, the provider-level listener group is
detached, and null address/provider notifications fire. -/
theorem accountsChanged_empty_is_disconnect
    (s : ConnectorState) (p : EIP6963ProviderDetail) (a : String) (g : Nat)
    (hsel : s.selectedProvider = some p) (haddr : s.address = some a)
    (hatt : s.attached = [(p.provider, g)]) (hcln : s.cleanup = some (p.provider, g)) :
    step s (Action.providerEvent p.provider (ProviderEvent.accountsChanged (some []))) =
      ((step s Action.disconnect).1,
        Effect.handlerInvoked p.provider g :: (step s Action.disconnect).2) ∧
    (step s Action.disconnect).1.address = none ∧
    (step s Action.disconnect).1.selectedProvider = none ∧
    (step s Action.disconnect).1.storedAddress = none ∧
    (step s Action.disconnect).1.storedUuid = none ∧
    (step s Action.disconnect).1.attached = [] ∧
    Effect.listenersRemoved p.provider g ∈ (step s Action.disconnect).2 ∧
    Effect.storageRemove "walletAddress" ∈ (step s Action.disconnect).2 ∧
    Effect.storageRemove "walletProviderUuid" ∈ (step s Action.disconnect).2 ∧
    Effect.notifyAddress none ∈ (step s Action.disconnect).2 ∧
    Effect.notifyProvider none ∈ (step s Action.disconnect).2 := by
  refine ⟨?_, rfl, rfl, rfl, rfl, ?_, ?_, ?_, ?_, ?_, ?_⟩
  · simp [step, fireEvent, dispatch, runHandler, hatt]
  · simp [step, disconnectStep, hcln, hatt]
  · simp [step, disconnectStep, hcln]
  · simp [step, disconnectStep, hcln]
  · simp [step, disconnectStep, hcln]
  · simp [step, disconnectStep, hcln]
  · simp [step, disconnectStep, hcln]

/-- Witness for C9 at the concrete connected state reached by one
successful `connect`. -/
theorem accountsChanged_empty_is_disconnect_witness :
    step connectedState
        (Action.providerEvent sp1.provider (ProviderEvent.accountsChanged (some []))) =
      ((step connectedState Action.disconnect).1,
        Effect.handlerInvoked sp1.provider 0 :: (step connectedState Action.disconnect).2) ∧
    (step connectedState Action.disconnect).1.address = none ∧
    (step connectedState Action.disconnect).1.selectedProvider = none ∧
    (step connectedState Action.disconnect).1.storedAddress = none ∧
    (step connectedState Action.disconnect).1.storedUuid = none ∧
    (step connectedState Action.disconnect).1.attached = [] ∧
    Effect.listenersRemoved sp1.provider 0 ∈ (step connectedState Action.disconnect).2 ∧
    Effect.storageRemove "walletAddress" ∈ (step connectedState Action.disconnect).2 ∧
    Effect.storageRemove "walletProviderUuid" ∈ (step connectedState Action.disconnect).2 ∧
    Effect.notifyAddress none ∈ (step connectedState Action.disconnect).2 ∧
    Effect.notifyProvider none ∈ (step connectedState Action.disconnect).2 :=
  accountsChanged_empty_is_disconnect connectedState sp1 "0xa" 0 rfl rfl rfl rfl

/-- C10: while connected, an `accountsChanged` event whose non-empty
account array starts with the current address leaves the entire state
(address, selected provider, subscriptions, persisted keys) unchanged and
fires no address-change or provider-change notification: the only effect
is the handler invocation itself. -/
theorem accountsChanged_same_address_noop
    (s : ConnectorState) (p : EIP6963ProviderDetail) (a : String) (g : Nat)
    (rest : List String)
    (hsel : s.selectedProvider = some p) (haddr : s.address = some a)
    (hatt : s.attached = [(p.provider, g)]) (hcln : s.cleanup = some (p.provider, g)) :
    step s (Action.providerEvent p.provider
        (ProviderEvent.accountsChanged (some (a :: rest)))) =
      (s, [Effect.handlerInvoked p.provider g]) := by
  simp [step, fireEvent, dispatch, runHandler, hatt, haddr]

/-- Witness for C10 at the concrete connected state reached by one
successful `connect`. -/
theorem accountsChanged_same_address_noop_witness :
    step connectedState (Action.providerEvent sp1.provider
        (ProviderEvent.accountsChanged (some ["0xa"]))) =
      (connectedState, [Effect.handlerInvoked sp1.provider 0]) :=
  accountsChanged_same_address_noop connectedState sp1 "0xa" 0 [] rfl rfl rfl rfl

/-- Guard for well-nested sessions: `connect` (and `reconnect`, which may
replay `connect`) is only invoked while disconnected.  Connecting while
already connected makes `setupProviderListeners` overwrite
`cleanupListeners`, leaking the previous listener group. -/
def wnGuard (s : ConnectorState) : Action → Bool
  | Action.connect _ _ => s.selectedProvider.isNone
  | Action.reconnect _ => s.selectedProvider.isNone
  | Action.disconnect => true
  | Action.providerEvent _ _ => true
  | Action.announce _ => true

/-- A trace is well-nested from `s` when every step respects `wnGuard`. -/
def wn (s : ConnectorState) : List Action → Bool
  | [] => true
  | a :: rest => wnGuard s a && wn (step s a).1 rest

/-- The inductive invariant of well-nested sessions: address and selected
provider are non-null together, and the registered listener groups are
either none (disconnected) or exactly the one recorded by
`cleanupListeners` (connected). -/
def WNInv (s : ConnectorState) : Prop :=
  s.address.isSome = s.selectedProvider.isSome ∧
  ((s.attached = [] ∧ s.cleanup = none) ∨
    (∃ g, s.attached = [g] ∧ s.cleanup = some g ∧ s.selectedProvider.isSome = true))

/-- The fresh connector satisfies the invariant. -/
theorem wnInv_init : WNInv initState := ⟨rfl, Or.inl ⟨rfl, rfl⟩⟩

/-- Helper: from an invariant state, `disconnect` restores the invariant
and leaves no listener group registered. -/
theorem disconnectStep_wnInv (s : ConnectorState) (h : WNInv s) :
    WNInv (disconnectStep s).1 ∧ (disconnectStep s).1.attached = [] := by
  have hatt : (disconnectStep s).1.attached = [] := by
    rcases h.2 with ⟨hatt, hcln⟩ | ⟨g, hatt, hcln, hsel⟩
    · simp [disconnectStep, hcln, hatt]
    · simp [disconnectStep, hcln, hatt]
  exact ⟨⟨rfl, Or.inl ⟨hatt, rfl⟩⟩, hatt⟩

/-- Helper: from an invariant connected state, one handler invocation
preserves the invariant. -/
theorem runHandler_wnInv (s : ConnectorState) (ev : ProviderEvent) (h : WNInv s)
    (hsel : s.selectedProvider.isSome = true) : WNInv (runHandler s ev).1 := by
  rcases ev with ⟨_ | (_ | ⟨a, l⟩)⟩ | _ | _
  · exact h
  · exact (disconnectStep_wnInv s h).1
  · by_cases ha : s.address = some a
    · simpa [runHandler, ha] using h
    · have h1 : (runHandler s (ProviderEvent.accountsChanged (some (a :: l)))).1
          = { s with address := some a } := by simp [runHandler, ha]
      rw [h1]
      exact ⟨by rw [hsel]; rfl, h.2⟩
  · exact h
  · exact (disconnectStep_wnInv s h).1

/-- Helper: from an invariant state, delivering any provider event
preserves the invariant. -/
theorem fireEvent_wnInv (s : ConnectorState) (hh : Nat) (ev : ProviderEvent)
    (h : WNInv s) : WNInv (fireEvent s hh ev).1 := by
  rcases hd : h.2 with ⟨hatt, hcln⟩ | ⟨g, hatt, hcln, hsel⟩
  · simpa [fireEvent, hatt, dispatch] using h
  · by_cases hg : g.1 = hh
    · have hfil : s.attached.filter (fun pg => pg.1 = hh) = [g] := by
        simp [hatt, hg]
      have heq : (fireEvent s hh ev).1 = (runHandler s ev).1 := by
        simp [fireEvent, hfil, dispatch]
      rw [heq]
      exact runHandler_wnInv s ev h hsel
    · have hfil : s.attached.filter (fun pg => pg.1 = hh) = [] := by
        simp [hatt, hg]
      simpa [fireEvent, hfil, dispatch] using h

/-- Helper: from an invariant disconnected state, `connect` preserves the
invariant whatever the provider returns. -/
theorem connectStep_wnInv (s : ConnectorState) (p : EIP6963ProviderDetail)
    (o : RequestOutcome) (h : WNInv s) (hg : s.selectedProvider.isNone = true) :
    WNInv (connectStep s p o).1 := by
  have hattnil : s.attached = [] := by
    rcases h.2 with ⟨hatt, _⟩ | ⟨g, hatt, hcln, hsel⟩
    · exact hatt
    · rw [Option.isNone_iff_eq_none] at hg
      rw [hg] at hsel
      cases hsel
  rcases o with ⟨_ | (_ | ⟨a, l⟩)⟩ | _
  · exact h
  · exact h
  · refine ⟨rfl, Or.inr ⟨(p.provider, s.nextGen), ?_, rfl, rfl⟩⟩
    show s.attached ++ [(p.provider, s.nextGen)] = [(p.provider, s.nextGen)]
    rw [hattnil]
    rfl
  · exact h

/-- Helper: any guarded step preserves the invariant. -/
theorem step_wnInv (s : ConnectorState) (a : Action) (h : WNInv s)
    (hg : wnGuard s a = true) : WNInv (step s a).1 := by
  rcases a with ⟨p, o⟩ | ⟨o⟩ | _ | ⟨hh, ev⟩ | ⟨p⟩
  · exact connectStep_wnInv s p o h hg
  · show WNInv (reconnectStep s o).1
    rcases hsa : s.storedAddress with _ | sa <;> rcases hsu : s.storedUuid with _ | su <;>
      simp only [reconnectStep, hsa, hsu]
    · exact h
    · exact h
    · exact h
    · rcases hf : s.providers.find? (fun q => q.info.uuid = su) with _ | p <;> simp only [hf]
      · exact h
      · exact connectStep_wnInv s p o h hg
  · exact (disconnectStep_wnInv s h).1
  · exact fireEvent_wnInv s hh ev h
  · show WNInv (announceStep s p).1
    by_cases hc : s.providers.any (fun q => q.info.uuid = p.info.uuid)
    · simpa [announceStep, hc] using h
    · have heq : (announceStep s p).1 = { s with providers := s.providers ++ [p] } := by
        simp [announceStep, hc]
      rw [heq]
      exact ⟨h.1, h.2⟩

/-- Helper: running a well-nested trace preserves the invariant. -/
theorem wn_runFrom_wnInv (acts : List Action) :
    ∀ s, WNInv s → wn s acts = true → WNInv (runFrom s acts).1 := by
  induction acts with
  | nil => intro s h _; exact h
  | cons a rest ih =>
      intro s h hwn
      simp only [wn, Bool.and_eq_true] at hwn
      exact ih (step s a).1 (step_wnInv s a h hwn.1) hwn.2

/-- The trace leaking a listener group: connect to `sp1`, connect to `sp2`
without disconnecting first, disconnect, then `sp1` fires
`accountsChanged`. -/
def leakPrefix : List Action :=
  [ Action.connect sp1 (RequestOutcome.success (some ["0xa"]))
  , Action.connect sp2 (RequestOutcome.success (some ["0xb"]))
  , Action.disconnect ]

/-- The reachable state after the leaking trace followed by an
`accountsChanged(["0xc"])` event from the first provider. -/
def leakFinal : ConnectorState :=
  (run (leakPrefix ++
    [Action.providerEvent 1 (ProviderEvent.accountsChanged (some ["0xc"]))])).1

/-- Counterexample for C7 as stated: after connect(sp1); connect(sp2);
disconnect(), the event `accountsChanged(["0xc"])` from sp1's leaked
listener leaves a reachable state with a non-null address and a null
selected provider. -/
theorem address_provider_invariant_cex :
    leakFinal.address = some "0xc" ∧ leakFinal.selectedProvider = none := by
  constructor
  · rfl
  · rfl

/-- C7 amended: in every state reachable by a sequence of connect,
disconnect, reconnect calls and provider events in which connect and
reconnect are only invoked while disconnected, the address is non-null if
and only if the selected provider is non-null.  (Connecting while already
connected leaks the previous provider's listeners, whose later events can
set the address while disconnected — the counterexample.) -/
theorem address_provider_invariant_wn (acts : List Action)
    (h : wn initState acts = true) :
    (run acts).1.address.isSome = (run acts).1.selectedProvider.isSome :=
  (wn_runFrom_wnInv acts initState wnInv_init h).1

/-- Witness for the amended C7 on a concrete well-nested trace: connect,
an account switch event, disconnect. -/
theorem address_provider_invariant_wn_witness :
    (run [ Action.connect sp1 (RequestOutcome.success (some ["0xa"]))
         , Action.providerEvent 1 (ProviderEvent.accountsChanged (some ["0xb"]))
         , Action.disconnect ]).1.address.isSome =
    (run [ Action.connect sp1 (RequestOutcome.success (some ["0xa"]))
         , Action.providerEvent 1 (ProviderEvent.accountsChanged (some ["0xb"]))
         , Action.disconnect ]).1.selectedProvider.isSome :=
  address_provider_invariant_wn
    [ Action.connect sp1 (RequestOutcome.success (some ["0xa"]))
    , Action.providerEvent 1 (ProviderEvent.accountsChanged (some ["0xb"]))
    , Action.disconnect ] (by decide)

/-- Helper: `disconnect` emits no handler invocation. -/
theorem disconnectStep_no_invoked (s : ConnectorState) (hh g : Nat) :
    Effect.handlerInvoked hh g ∉ (disconnectStep s).2 := by
  rcases hc : s.cleanup with _ | pg <;> simp [disconnectStep, hc]

/-- Helper: `disconnect` emits no listener registration. -/
theorem disconnectStep_no_added (s : ConnectorState) (hh g : Nat) :
    Effect.listenersAdded hh g ∉ (disconnectStep s).2 := by
  rcases hc : s.cleanup with _ | pg <;> simp [disconnectStep, hc]

/-- Helper: `disconnect` only removes listener groups. -/
theorem disconnectStep_attached_sub (s : ConnectorState) :
    ∀ pg ∈ (disconnectStep s).1.attached, pg ∈ s.attached := by
  intro pg hpg
  rcases hc : s.cleanup with _ | qg
  · simpa [disconnectStep, hc] using hpg
  · rw [disconnectStep] at hpg
    simp only [hc] at hpg
    exact List.mem_of_mem_filter hpg

/-- Helper: handler bodies emit no handler invocation of their own. -/
theorem runHandler_no_invoked (s : ConnectorState) (ev : ProviderEvent) (hh g : Nat) :
    Effect.handlerInvoked hh g ∉ (runHandler s ev).2 := by
  rcases ev with ⟨_ | (_ | ⟨a, l⟩)⟩ | _ | _
  · simp [runHandler]
  · exact disconnectStep_no_invoked s hh g
  · by_cases ha : s.address = some a <;> simp [runHandler, ha]
  · simp [runHandler]
  · exact disconnectStep_no_invoked s hh g

/-- Helper: handler bodies emit no listener registration. -/
theorem runHandler_no_added (s : ConnectorState) (ev : ProviderEvent) (hh g : Nat) :
    Effect.listenersAdded hh g ∉ (runHandler s ev).2 := by
  rcases ev with ⟨_ | (_ | ⟨a, l⟩)⟩ | _ | _
  · simp [runHandler]
  · exact disconnectStep_no_added s hh g
  · by_cases ha : s.address = some a <;> simp [runHandler, ha]
  · simp [runHandler]
  · exact disconnectStep_no_added s hh g

/-- Helper: handler bodies never register new listener groups. -/
theorem runHandler_attached_sub (s : ConnectorState) (ev : ProviderEvent) :
    ∀ pg ∈ (runHandler s ev).1.attached, pg ∈ s.attached := by
  rcases ev with ⟨_ | (_ | ⟨a, l⟩)⟩ | _ | _
  · exact fun pg hpg => hpg
  · exact disconnectStep_attached_sub s
  · by_cases ha : s.address = some a <;> simp [runHandler, ha]
  · exact fun pg hpg => hpg
  · exact disconnectStep_attached_sub s

/-- Helper: handler bodies keep the generation counter. -/
theorem runHandler_nextGen (s : ConnectorState) (ev : ProviderEvent) :
    (runHandler s ev).1.nextGen = s.nextGen := by
  rcases ev with ⟨_ | (_ | ⟨a, l⟩)⟩ | _ | _
  · rfl
  · rfl
  · by_cases ha : s.address = some a <;> simp [runHandler, ha]
  · rfl
  · rfl

/-- All registered listener groups and the generation counter are at or
above `N`. -/
def GensBounded (N : Nat) (s : ConnectorState) : Prop :=
  (∀ pg ∈ s.attached, N ≤ pg.2) ∧ N ≤ s.nextGen

/-- Helper: event delivery preserves the generation bound, only invokes
groups at or above it, and registers nothing. -/
theorem dispatch_gens (ev : ProviderEvent) (N : Nat) (groups : List (Nat × Nat)) :
    ∀ s : ConnectorState,
    (∀ pg ∈ s.attached, N ≤ pg.2) → N ≤ s.nextGen → (∀ pg ∈ groups, N ≤ pg.2) →
    ((∀ pg ∈ (dispatch ev groups s).1.attached, N ≤ pg.2) ∧
     N ≤ (dispatch ev groups s).1.nextGen ∧
     (∀ hh g, Effect.handlerInvoked hh g ∈ (dispatch ev groups s).2 → N ≤ g) ∧
     (∀ hh g, Effect.listenersAdded hh g ∉ (dispatch ev groups s).2)) := by
  induction groups with
  | nil =>
      intro s h1 h2 _
      exact ⟨h1, h2, by simp [dispatch], by simp [dispatch]⟩
  | cons pg rest ih =>
      intro s h1 h2 h3
      have hr1 : ∀ qg ∈ (runHandler s ev).1.attached, N ≤ qg.2 :=
        fun qg hq => h1 qg (runHandler_attached_sub s ev qg hq)
      have hr2 : N ≤ (runHandler s ev).1.nextGen := by
        rw [runHandler_nextGen]
        exact h2
      obtain ⟨ih1, ih2, ih3, ih4⟩ := ih (runHandler s ev).1 hr1 hr2
        (fun qg hq => h3 qg (List.mem_cons_of_mem _ hq))
      refine ⟨ih1, ih2, ?_, ?_⟩
      · intro hh g hmem
        simp only [dispatch, List.mem_cons, List.mem_append] at hmem
        rcases hmem with hmem | hmem | hmem
        · obtain ⟨h4, h5⟩ := Effect.handlerInvoked.inj hmem
          rw [h5]
          exact h3 pg (List.mem_cons_self _ _)
        · exact absurd hmem (runHandler_no_invoked s ev hh g)
        · exact ih3 hh g hmem
      · intro hh g hmem
        simp only [dispatch, List.mem_cons, List.mem_append] at hmem
        rcases hmem with hmem | hmem | hmem
        · exact Effect.noConfusion hmem
        · exact absurd hmem (runHandler_no_added s ev hh g)
        · exact ih4 hh g hmem

/-- Helper: `connect` preserves the generation bound and invokes no
handler. -/
theorem connectStep_gens (s : ConnectorState) (p : EIP6963ProviderDetail)
    (o : RequestOutcome) (N : Nat) (h : GensBounded N s) :
    GensBounded N (connectStep s p o).1 ∧
    (∀ hh g, Effect.handlerInvoked hh g ∉ (connectStep s p o).2.2) := by
  rcases o with ⟨_ | (_ | ⟨a, l⟩)⟩ | _
  · exact ⟨h, by simp [connectStep]⟩
  · exact ⟨h, by simp [connectStep]⟩
  · refine ⟨⟨?_, Nat.le_succ_of_le h.2⟩, by simp [connectStep]⟩
    intro pg hpg
    rcases List.mem_append.mp hpg with hm | hm
    · exact h.1 pg hm
    · rw [List.mem_singleton.mp hm]
      exact h.2
  · exact ⟨h, by simp [connectStep]⟩

/-- Helper: every step preserves the generation bound, and every handler
invocation it emits names a generation at or above the bound. -/
theorem step_gens (s : ConnectorState) (a : Action) (N : Nat) (h : GensBounded N s) :
    GensBounded N (step s a).1 ∧
    (∀ hh g, Effect.handlerInvoked hh g ∈ (step s a).2 → N ≤ g) := by
  rcases a with ⟨p, o⟩ | ⟨o⟩ | _ | ⟨hh₀, ev⟩ | ⟨p⟩
  · obtain ⟨h1, h2⟩ := connectStep_gens s p o N h
    exact ⟨h1, fun hh g hm => absurd hm (h2 hh g)⟩
  · show GensBounded N (reconnectStep s o).1 ∧
      (∀ hh g, Effect.handlerInvoked hh g ∈ (reconnectStep s o).2.2 → N ≤ g)
    rcases hsa : s.storedAddress with _ | sa <;> rcases hsu : s.storedUuid with _ | su <;>
      simp only [reconnectStep, hsa, hsu]
    · exact ⟨h, by simp⟩
    · exact ⟨h, by simp⟩
    · exact ⟨h, by simp⟩
    · rcases hf : s.providers.find? (fun q => q.info.uuid = su) with _ | p <;> simp only [hf]
      · exact ⟨h, by simp⟩
      · obtain ⟨h1, h2⟩ := connectStep_gens s p o N h
        exact ⟨h1, fun hh g hm => absurd hm (h2 hh g)⟩
  · exact ⟨⟨fun pg hpg => h.1 pg (disconnectStep_attached_sub s pg hpg), h.2⟩,
      fun hh g hm => absurd hm (disconnectStep_no_invoked s hh g)⟩
  · have hgr : ∀ pg ∈ s.attached.filter (fun pg => pg.1 = hh₀), N ≤ pg.2 :=
      fun pg hpg => h.1 pg (List.mem_of_mem_filter hpg)
    obtain ⟨d1, d2, d3, d4⟩ :=
      dispatch_gens ev N (s.attached.filter (fun pg => pg.1 = hh₀)) s h.1 h.2 hgr
    exact ⟨⟨d1, d2⟩, d3⟩
  · constructor
    · show GensBounded N (announceStep s p).1
      by_cases hc : s.providers.any (fun q => q.info.uuid = p.info.uuid)
      · simpa [announceStep, hc] using h
      · have heq : (announceStep s p).1 = { s with providers := s.providers ++ [p] } := by
          simp [announceStep, hc]
        rw [heq]
        exact h
    · intro hh g hm
      by_cases hc : s.providers.any (fun q => q.info.uuid = p.info.uuid) <;>
        simp [step, announceStep, hc] at hm

/-- Helper: running any trace preserves the generation bound, and every
handler invocation along it names a generation at or above the bound. -/
theorem runFrom_gens (acts : List Action) :
    ∀ (s : ConnectorState) (N : Nat), GensBounded N s →
    GensBounded N (runFrom s acts).1 ∧
    (∀ hh g, Effect.handlerInvoked hh g ∈ (runFrom s acts).2 → N ≤ g) := by
  induction acts with
  | nil => intro s N h; exact ⟨h, by simp [runFrom]⟩
  | cons a rest ih =>
      intro s N h
      obtain ⟨h1, h2⟩ := step_gens s a N h
      obtain ⟨ih1, ih2⟩ := ih (step s a).1 N h1
      refine ⟨ih1, ?_⟩
      intro hh g hm
      simp only [runFrom, List.mem_append] at hm
      rcases hm with hm | hm
      · exact h2 hh g hm
      · exact ih2 hh g hm

/-- Helper: event delivery keeps the generation counter. -/
theorem dispatch_nextGen (ev : ProviderEvent) (groups : List (Nat × Nat)) :
    ∀ s, (dispatch ev groups s).1.nextGen = s.nextGen := by
  induction groups with
  | nil => intro s; rfl
  | cons pg rest ih =>
      intro s
      show (dispatch ev rest (runHandler s ev).1).1.nextGen = s.nextGen
      rw [ih, runHandler_nextGen]

/-- Helper: the generation counter never decreases. -/
theorem step_nextGen_mono (s : ConnectorState) (a : Action) :
    s.nextGen ≤ (step s a).1.nextGen := by
  rcases a with ⟨p, o⟩ | ⟨o⟩ | _ | ⟨hh₀, ev⟩ | ⟨p⟩
  · rcases o with ⟨_ | (_ | ⟨a, l⟩)⟩ | _
    · exact Nat.le_refl _
    · exact Nat.le_refl _
    · exact Nat.le_succ _
    · exact Nat.le_refl _
  · show s.nextGen ≤ (reconnectStep s o).1.nextGen
    rcases hsa : s.storedAddress with _ | sa <;> rcases hsu : s.storedUuid with _ | su <;>
      simp only [reconnectStep, hsa, hsu]
    · exact Nat.le_refl _
    · exact Nat.le_refl _
    · exact Nat.le_refl _
    · rcases hf : s.providers.find? (fun q => q.info.uuid = su) with _ | p <;> simp only [hf]
      · exact Nat.le_refl _
      · rcases o with ⟨_ | (_ | ⟨a, l⟩)⟩ | _
        · exact Nat.le_refl _
        · exact Nat.le_refl _
        · exact Nat.le_succ _
        · exact Nat.le_refl _
  · exact Nat.le_refl _
  · show s.nextGen ≤ (fireEvent s hh₀ ev).1.nextGen
    rw [fireEvent, dispatch_nextGen]
  · show s.nextGen ≤ (announceStep s p).1.nextGen
    by_cases hc : s.providers.any (fun q => q.info.uuid = p.info.uuid) <;>
      simp [announceStep, hc]

/-- Helper: running a trace never decreases the generation counter. -/
theorem runFrom_nextGen_mono (acts : List Action) :
    ∀ s : ConnectorState, s.nextGen ≤ (runFrom s acts).1.nextGen := by
  induction acts with
  | nil => intro s; exact Nat.le_refl _
  | cons a rest ih =>
      intro s
      exact Nat.le_trans (step_nextGen_mono s a) (ih (step s a).1)

/-- Helper: event delivery registers no listener group. -/
theorem dispatch_no_added (ev : ProviderEvent) (groups : List (Nat × Nat)) :
    ∀ s hh g, Effect.listenersAdded hh g ∉ (dispatch ev groups s).2 := by
  induction groups with
  | nil => intro s hh g; simp [dispatch]
  | cons pg rest ih =>
      intro s hh g hm
      simp only [dispatch, List.mem_cons, List.mem_append] at hm
      rcases hm with hm | hm | hm
      · exact Effect.noConfusion hm
      · exact absurd hm (runHandler_no_added s ev hh g)
      · exact absurd hm (ih (runHandler s ev).1 hh g)

/-- Helper: a step registers a listener group only under the current
generation number, and then advances the counter past it. -/
theorem step_added (s : ConnectorState) (a : Action) (hh g : Nat)
    (hm : Effect.listenersAdded hh g ∈ (step s a).2) :
    g = s.nextGen ∧ s.nextGen < (step s a).1.nextGen := by
  rcases a with ⟨p, o⟩ | ⟨o⟩ | _ | ⟨hh₀, ev⟩ | ⟨p⟩
  · rcases o with ⟨_ | (_ | ⟨a, l⟩)⟩ | _
    · simp [step, connectStep] at hm
    · simp [step, connectStep] at hm
    · simp only [step, connectStep, List.mem_cons] at hm
      rcases hm with hm | hm
      · exact ⟨(Effect.listenersAdded.inj hm).2, Nat.lt_succ_self _⟩
      · simp at hm
    · simp [step, connectStep] at hm
  · simp only [step] at hm ⊢
    rcases hsa : s.storedAddress with _ | sa <;> rcases hsu : s.storedUuid with _ | su <;>
      simp only [reconnectStep, hsa, hsu] at hm ⊢
    · simp at hm
    · simp at hm
    · simp at hm
    · rcases hf : s.providers.find? (fun q => q.info.uuid = su) with _ | p <;>
        simp only [hf] at hm ⊢
      · simp at hm
      · rcases o with ⟨_ | (_ | ⟨a, l⟩)⟩ | _
        · simp [connectStep] at hm
        · simp [connectStep] at hm
        · simp only [connectStep, List.mem_cons] at hm
          rcases hm with hm | hm
          · exact ⟨(Effect.listenersAdded.inj hm).2, Nat.lt_succ_self _⟩
          · simp at hm
        · simp [connectStep] at hm
  · exact absurd hm (disconnectStep_no_added s hh g)
  · exact absurd hm (dispatch_no_added ev _ s hh g)
  · by_cases hc : s.providers.any (fun q => q.info.uuid = p.info.uuid) <;>
      simp [step, announceStep, hc] at hm

/-- Helper: every listener group registered along a trace has a generation
below the final counter. -/
theorem runFrom_added (acts : List Action) :
    ∀ (s : ConnectorState) (hh g : Nat),
    Effect.listenersAdded hh g ∈ (runFrom s acts).2 → g < (runFrom s acts).1.nextGen := by
  induction acts with
  | nil => intro s hh g hm; simp [runFrom] at hm
  | cons a rest ih =>
      intro s hh g hm
      simp only [runFrom, List.mem_append] at hm
      rcases hm with hm | hm
      · obtain ⟨hg, hlt⟩ := step_added s a hh g hm
        calc g = s.nextGen := hg
          _ < (step s a).1.nextGen := hlt
          _ ≤ (runFrom (step s a).1 rest).1.nextGen := runFrom_nextGen_mono rest _
      · exact ih (step s a).1 hh g hm

/-- Counterexample for C5 as stated: after connect(sp1); connect(sp2);
disconnect() — a sequence of connect calls the claim quantifies over — the
listener group registered on sp1 during the first connect (generation 0)
is still invoked when sp1 later fires `accountsChanged`: the second
`setupProviderListeners` overwrote `cleanupListeners`, so `disconnect`
only detached sp2's listeners. -/
theorem stale_listener_invoked_cex :
    Effect.listenersAdded 1 0 ∈ (runFrom initState leakPrefix).2 ∧
    Effect.handlerInvoked 1 0 ∈
      (runFrom (runFrom initState leakPrefix).1
        [Action.providerEvent 1 (ProviderEvent.accountsChanged (some ["0xc"]))]).2 := by
  constructor
  · decide
  · decide

/-- C5 amended: provided connect (and reconnect) are only invoked while
disconnected — ruling out the listener leak of the counterexample — after
`disconnect()` returns no provider-level listener group registered by the
WalletConnector before that disconnect is ever invoked again, whatever
provider events and further actions follow. -/
theorem no_stale_listener_after_disconnect (t1 t2 : List Action)
    (hwn : wn initState t1 = true) :
    ∀ h1 h2 g, Effect.listenersAdded h1 g ∈ (runFrom initState t1).2 →
      Effect.handlerInvoked h2 g ∉
        (runFrom (step (runFrom initState t1).1 Action.disconnect).1 t2).2 := by
  intro h1 h2 g hadd hinv
  have hlt : g < (runFrom initState t1).1.nextGen :=
    runFrom_added t1 initState h1 g hadd
  have hinv1 : WNInv (runFrom initState t1).1 :=
    wn_runFrom_wnInv t1 initState wnInv_init hwn
  have hdemp : (step (runFrom initState t1).1 Action.disconnect).1.attached = [] :=
    (disconnectStep_wnInv (runFrom initState t1).1 hinv1).2
  have hgb : GensBounded (runFrom initState t1).1.nextGen
      (step (runFrom initState t1).1 Action.disconnect).1 := by
    constructor
    · intro pg hpg
      rw [hdemp] at hpg
      exact absurd hpg (List.not_mem_nil pg)
    · exact Nat.le_refl _
  have hge := (runFrom_gens t2 _ _ hgb).2 h2 g hinv
  omega

/-- Witness for the amended C5: after a well-nested connect and a
disconnect, the listener group registered during the connect is not
invoked by a later `accountsChanged` from the same provider. -/
theorem no_stale_listener_after_disconnect_witness :
    Effect.listenersAdded 1 0 ∈
      (runFrom initState [Action.connect sp1 (RequestOutcome.success (some ["0xa"]))]).2 ∧
    Effect.handlerInvoked 1 0 ∉
      (runFrom (step (runFrom initState
          [Action.connect sp1 (RequestOutcome.success (some ["0xa"]))]).1
          Action.disconnect).1
        [Action.providerEvent 1 (ProviderEvent.accountsChanged (some ["0xz"]))]).2 :=
  ⟨by decide,
   no_stale_listener_after_disconnect
     [Action.connect sp1 (RequestOutcome.success (some ["0xa"]))]
     [Action.providerEvent 1 (ProviderEvent.accountsChanged (some ["0xz"]))]
     (by decide) 1 1 0 (by decide)⟩

end EIP712Authn
